import Mathlib

/-!
Shallow embedding of the safety-enforcement core of the `tsmithcode/agent`
repository: the `Policy` ruleset (`src/core/cg/safety/policy.py`), the
`Executor` mediating file writes and command execution
(`src/core/cg/safety/executor.py`), and the deterministic `Router`
(`src/core/cg/router.py`).

Conventions of the embedding:
* POSIX paths are modelled lexically (`PyPath`); `Path.resolve()` is modelled
  on a symlink-free filesystem, so resolution is pure lexical normalisation
  of `.`/`..` against an environment supplying the process working directory
  and home directory.
* The filesystem touched by `write_file` is modelled as an explicit state
  value threaded through the call; command execution is modelled by an
  oracle (`ProcBehavior`) describing what the child process would do, and
  a boolean recording whether a child process was spawned.
* Python exceptions are modelled with `Except` / explicit outcome types.
-/

namespace CG

/-! ### String helpers used by the source

Lean's `Substring`-based string functions (`trim`, `splitOn`, `startsWith`,
…) are defined by well-founded recursion and do not reduce in the kernel,
so the embedding uses structurally recursive equivalents over `List Char`. -/

/-- Python's `str` whitespace for `strip`/`split` (ASCII fragment). -/
def pyIsSpace (c : Char) : Bool :=
  c = ' ' || c = Char.ofNat 9 || c = Char.ofNat 10 || c = Char.ofNat 11 ||
    c = Char.ofNat 12 || c = Char.ofNat 13

/-- Python `str.strip()` (ASCII whitespace). -/
def pyStrip (s : String) : String :=
  ⟨((s.data.dropWhile pyIsSpace).reverse.dropWhile pyIsSpace).reverse⟩

/-- Python `str.lower()` (ASCII fragment). -/
def pyLower (s : String) : String :=
  ⟨s.data.map Char.toLower⟩

/-- `pre` is a prefix of `s` (Python `str.startswith`). -/
def strStartsWith (s pre : String) : Bool :=
  pre.data.isPrefixOf s.data

/-- Split a character list at every character satisfying `p` (separators are
consumed; empty pieces are kept, as in Python `str.split(sep)`). -/
def splitByPred (p : Char → Bool) : List Char → List (List Char)
  | [] => [[]]
  | c :: rest =>
    match splitByPred p rest with
    | [] => [[]]
    | g :: gs => if p c then [] :: g :: gs else (c :: g) :: gs

/-- Join with a separator (Python `sep.join`). -/
def joinSep (sep : String) : List String → String
  | [] => ""
  | [x] => x
  | x :: xs => x ++ sep ++ joinSep sep xs


/-- `pat` occurs as a contiguous sublist of `hay` (Python `pat in text`
substring containment, on the character lists). -/
def subList (pat : List Char) : List Char → Bool
  | [] => pat.isPrefixOf []
  | h :: t => pat.isPrefixOf (h :: t) || subList pat t

/-- Python's substring containment `pat in text`. -/
def strContains (text pat : String) : Bool :=
  subList pat.data text.data

/-- Python `str.split()` with no arguments: split on whitespace runs,
dropping empty pieces. -/
def splitWs (s : String) : List String :=
  ((splitByPred pyIsSpace s.data).map String.mk).filter fun x => x ≠ ""

/-- `" ".join(s.strip().split())`: whitespace normalisation used for the
destructive-pattern comparison. -/
def normWs (s : String) : String :=
  joinSep " " (splitWs s)

/-- The last `n` characters of a string (Python `s[-n:]` for `n > 0`). -/
def strTakeRight (s : String) (n : Nat) : String :=
  ⟨s.data.drop (s.data.length - n)⟩

/-! ### Lexical model of `pathlib.PurePosixPath` / `Path.resolve` -/

/-- A POSIX path: whether it is absolute, and its components (no empty
components and no `.` components, matching `PurePosixPath`'s parsing which
collapses spurious slashes and single dots). -/
structure PyPath where
  absolute : Bool
  parts : List String
deriving DecidableEq, Repr

/-- The execution environment: the process working directory (`os.getcwd()`)
and the user's home directory (`os.path.expanduser("~")`). -/
structure Env where
  cwd : PyPath
  home : PyPath
deriving DecidableEq, Repr

/-- Parsing a string into a path, as `PurePosixPath(s)`: split on `/`,
drop empty and `.` components, absolute iff the string starts with `/`. -/
def parsePath (s : String) : PyPath :=
  ⟨(s.data.head? = some '/' : Bool),
    ((splitByPred (fun c => c = '/') s.data).map String.mk).filter
      fun c => c ≠ "" && c ≠ "."⟩

/-- Rendering a path back to a string, as `str(PurePosixPath(...))`. -/
def pathToString (p : PyPath) : String :=
  if p.absolute then "/" ++ joinSep "/" p.parts
  else if p.parts = [] then "." else joinSep "/" p.parts

/-- `Path.expanduser()` / `os.path.expanduser`: a leading bare `~` component
of a relative path is replaced by the home directory.  (`~user` forms are
left unchanged in this model.) -/
def expanduserP (env : Env) (p : PyPath) : PyPath :=
  if p.absolute = false ∧ p.parts.head? = some "~" then
    ⟨env.home.absolute, env.home.parts ++ p.parts.tail⟩
  else p

/-- One step of lexical `..` elimination: `..` removes the last accumulated
component (a no-op at the root, as in POSIX resolution).  `.` and empty
components are dropped; `pathlib` paths never contain them (its constructor
collapses them), so on the image of Python paths this is exactly `..`
elimination. -/
def normStep (acc : List String) (c : String) : List String :=
  if c = ".." then acc.dropLast
  else if c = "." ∨ c = "" then acc
  else acc ++ [c]

/-- `Path.resolve()` on a symlink-free filesystem: make the path absolute
against the working directory and eliminate `..` lexically. -/
def resolveP (env : Env) (p : PyPath) : PyPath :=
  ⟨true, ((if p.absolute then [] else env.cwd.parts) ++ p.parts).foldl normStep []⟩

/-- `PurePath.is_relative_to(r)`: `r` is a path-wise prefix of `p`. -/
def isRelativeTo (p r : PyPath) : Bool :=
  p.absolute == r.absolute && r.parts.isPrefixOf p.parts

/-- `Path.__truediv__` (`base / child`): an absolute right operand replaces
the left operand. -/
def joinPath (base child : PyPath) : PyPath :=
  if child.absolute then child else ⟨base.absolute, base.parts ++ child.parts⟩

/-! ### `shlex.split` (POSIX mode, whitespace splitting, no comments) -/

def chBackslash : Char := '\\'

def chSquote : Char := Char.ofNat 39

def chDquote : Char := Char.ofNat 34

/-- `shlex.whitespace`. -/
def isShWs (c : Char) : Bool :=
  c = ' ' || c = Char.ofNat 9 || c = Char.ofNat 13 || c = Char.ofNat 10

/-- Lexer states of `shlex.read_token`: between tokens, inside a bare word,
inside single/double quotes, or just after an escape character seen in a
bare word / inside double quotes. -/
inductive ShState where
  | between | word | squote | dquote | escWord | escDquote
deriving DecidableEq, Repr

/-- The `shlex` token loop.  `quoted` records whether the current token saw
a quote (so `''` yields an empty token); `none` models `ValueError` (unclosed
quote or dangling escape). -/
def shlexRun (st : ShState) (quoted : Bool) (cur : List Char)
    (acc : List String) : List Char → Option (List String)
  | [] =>
    match st with
    | .between => some acc
    | .word => some (acc ++ [String.mk cur])
    | _ => none
  | c :: rest =>
    match st with
    | .between =>
      if isShWs c then shlexRun .between false [] acc rest
      else if c = chSquote then shlexRun .squote true [] acc rest
      else if c = chDquote then shlexRun .dquote true [] acc rest
      else if c = chBackslash then shlexRun .escWord false [] acc rest
      else shlexRun .word false [c] acc rest
    | .word =>
      if isShWs c then shlexRun .between false [] (acc ++ [String.mk cur]) rest
      else if c = chSquote then shlexRun .squote true cur acc rest
      else if c = chDquote then shlexRun .dquote true cur acc rest
      else if c = chBackslash then shlexRun .escWord quoted cur acc rest
      else shlexRun .word quoted (cur ++ [c]) acc rest
    | .squote =>
      if c = chSquote then shlexRun .word quoted cur acc rest
      else shlexRun .squote quoted (cur ++ [c]) acc rest
    | .dquote =>
      if c = chDquote then shlexRun .word quoted cur acc rest
      else if c = chBackslash then shlexRun .escDquote quoted cur acc rest
      else shlexRun .dquote quoted (cur ++ [c]) acc rest
    | .escWord => shlexRun .word quoted (cur ++ [c]) acc rest
    | .escDquote =>
      if c = chDquote || c = chBackslash then
        shlexRun .dquote quoted (cur ++ [c]) acc rest
      else shlexRun .dquote quoted (cur ++ [chBackslash, c]) acc rest

/-- `shlex.split(command)`; `none` models a raised `ValueError`. -/
def shlexSplit (s : String) : Option (List String) :=
  shlexRun .between false [] [] s.data

/-! ### `Policy` (`src/core/cg/safety/policy.py`)

The Python `Policy` dataclass keeps raw string lists and dicts and exposes
typed accessors with defaults; the embedding records, for each field the
claims touch, the value the corresponding accessor returns. -/

structure Policy where
  allowed_write_roots : List String
  allowed_read_roots : List String
  denied_paths : List String
  command_allowlist : List String
  command_denylist : List String
  /-- accessor `destructive_deny_patterns()` -/
  destructive_deny_patterns : List String
  /-- `rm_rules().get("deny_recursive", False)` -/
  rm_deny_recursive : Bool
  /-- `rm_rules().get("allow_recursive_only_under") or []` -/
  rm_allow_recursive_only_under : List String
  /-- `git_controls.get("deny_push", False)` -/
  git_deny_push : Bool
  git_deny_force : Bool
  git_deny_remote_add : Bool
  /-- accessor `allow_outbound_http()` -/
  allow_outbound_http : Bool
  /-- accessor `allow_domains()` -/
  allow_domains : List String
  /-- accessor `max_file_write_bytes()` -/
  max_file_write_bytes : Nat
  /-- accessor `enable_deterministic_routing()` -/
  enable_deterministic_routing : Bool
  /-- raw `routing_controls["deterministic_confidence_threshold"]` value,
  in hundredths -/
  dct_raw : Int
  /-- accessor `allowed_deterministic_handlers()` -/
  allowed_handlers : List String
  /-- accessor `force_llm_patterns()` -/
  force_llm_patterns : List String
deriving DecidableEq, Repr

/-- Accessor `deterministic_confidence_threshold()`: the configured value
clamped to `[0, 1]` (`max(0.0, min(1.0, f))`), in hundredths. -/
def Policy.deterministic_confidence_threshold (p : Policy) : Int :=
  max 0 (min 100 p.dct_raw)

/-- The raw path-typed configuration fields consumed by `Policy.load`
(`data.get(key) or []` for each key). -/
structure PolicyConfig where
  allowed_write_roots : List String
  allowed_read_roots : List String
  denied_paths : List String
deriving DecidableEq, Repr

/-- `_expand_resolve(p) = str(Path(os.path.expanduser(p)).resolve())`. -/
def expand_resolve (env : Env) (s : String) : String :=
  pathToString (resolveP env (expanduserP env (parsePath s)))

/-- The path-normalisation part of `Policy.load`: expand/resolve every
configured path and strip the filesystem root from `denied_paths`. -/
def Policy.loadPaths (env : Env) (cfg : PolicyConfig) :
    List String × List String × List String :=
  let write := cfg.allowed_write_roots.map (expand_resolve env)
  let read := cfg.allowed_read_roots.map (expand_resolve env)
  let denied := (cfg.denied_paths.map (expand_resolve env)).filter (· ≠ "/")
  (write, read, denied)

/-! ### `Executor` (`src/core/cg/safety/executor.py`) -/

/-- `PolicyViolation(message, rule=rule)`; the constructor strips the rule. -/
structure Violation where
  message : String
  rule : String
deriving DecidableEq, Repr

/-- `_violation(message, rule=rule)` building a `PolicyViolation`, whose
`__init__` stores `(rule or "").strip()`. -/
def mkViolation (message rule : String) : Violation :=
  ⟨message, pyStrip rule⟩

deriving instance DecidableEq for Except

/-- The rule tag of a failed check, if any. -/
def checkRule? (e : Except Violation Unit) : Option String :=
  match e with
  | .error v => some v.rule
  | .ok _ => none

/-- The rule tag of a failed `write_file`, if any. -/
def writeRule? (e : Except Violation PyPath) : Option String :=
  match e with
  | .error v => some v.rule
  | .ok _ => none

/-- `ExecResult`. -/
structure ExecResult where
  ok : Bool
  command : String
  exit_code : Int
  stdout : String
  stderr : String
deriving DecidableEq, Repr

structure Executor where
  policy : Policy
  /-- `self.workspace = workspace.resolve()` -/
  workspace : PyPath
deriving DecidableEq, Repr

/-- `Executor.__init__`: the workspace is resolved at construction. -/
def Executor.make (env : Env) (policy : Policy) (workspace : PyPath) : Executor :=
  ⟨policy, resolveP env workspace⟩

/-- `Executor._is_denied_path` (the `str.startswith` fallback arm is dead on
Python ≥ 3.9 and is not modelled). -/
def is_denied_path (env : Env) (policy : Policy) (p : PyPath) : Bool :=
  let q := resolveP env p
  policy.denied_paths.any fun d =>
    isRelativeTo q (resolveP env (expanduserP env (parsePath d)))

/-- `Executor._is_allowed_write`. -/
def is_allowed_write (env : Env) (policy : Policy) (p : PyPath) : Bool :=
  let q := resolveP env p
  policy.allowed_write_roots.any fun root =>
    isRelativeTo q (resolveP env (expanduserP env (parsePath root)))

/-- `Executor._is_allowed_read`: an empty read-root list is unrestricted. -/
def is_allowed_read (env : Env) (policy : Policy) (p : PyPath) : Bool :=
  let q := resolveP env p
  if policy.allowed_read_roots.isEmpty then true
  else policy.allowed_read_roots.any fun root =>
    isRelativeTo q (resolveP env (expanduserP env (parsePath root)))

/-- `Executor._enforce_write_size_limit`: compare the UTF-8 byte length of
the content against `max_file_write_bytes`. -/
def enforce_write_size_limit (policy : Policy) (content : String) :
    Except Violation Unit :=
  let size := content.utf8ByteSize
  if size > policy.max_file_write_bytes then
    .error (mkViolation
      ("Write exceeds max_file_write_bytes: " ++ toString size ++ " > " ++
        toString policy.max_file_write_bytes)
      "execution_limits.max_file_write_bytes")
  else .ok ()

/-- `Executor._enforce_destructive_patterns`. -/
def enforce_destructive_patterns (policy : Policy) (command : String) :
    Except Violation Unit :=
  let cmd_norm := normWs command
  match policy.destructive_deny_patterns.find? (fun pat => normWs pat == cmd_norm) with
  | some pat =>
    .error (mkViolation ("Command matches denied destructive pattern: " ++ pat)
      "destructive_command_controls.deny_patterns")
  | none => .ok ()

/-- `Executor._resolve_cli_path`. -/
def resolve_cli_path (env : Env) (path_arg : String) (cwd : PyPath) : PyPath :=
  let p := expanduserP env (parsePath path_arg)
  let p := if p.absolute then p else joinPath cwd p
  resolveP env p

/-- The recursive flag test of `_enforce_rm_rules`:
`any(flag in parts for flag in ("-r", "-rf", "-fr", "--recursive"))`. -/
def hasRecursiveFlag (parts : List String) : Bool :=
  ["-r", "-rf", "-fr", "--recursive"].any fun flag => parts.contains flag

/-- The non-flag arguments of the rm command (`parts[1:]`, skipping
arguments that start with `-`). -/
def rmTargetArgs (parts : List String) : List String :=
  parts.tail.filter fun a => !strStartsWith a "-"

/-- The resolved recursive-delete roots
(`[Path(p).expanduser().resolve() for p in allow_recursive_only_under]`). -/
def rmRoots (env : Env) (policy : Policy) : List PyPath :=
  policy.rm_allow_recursive_only_under.map
    fun p => resolveP env (expanduserP env (parsePath p))

/-- `Executor._enforce_rm_rules`. -/
def enforce_rm_rules (env : Env) (policy : Policy) (parts : List String)
    (cwd : PyPath) : Except Violation Unit :=
  if parts.head? ≠ some "rm" then .ok ()
  else
    let deny_recursive := policy.rm_deny_recursive
    let allow_recursive_roots := rmRoots env policy
    let has_recursive := hasRecursiveFlag parts
    if has_recursive && deny_recursive then
      .error (mkViolation "Recursive rm is denied by policy."
        "destructive_command_controls.rm_rules.deny_recursive")
    else if has_recursive && !allow_recursive_roots.isEmpty then
      let targets := (rmTargetArgs parts).map fun a => resolve_cli_path env a cwd
      match targets.find? (fun t => !allow_recursive_roots.any fun r => isRelativeTo t r) with
      | some t =>
        .error (mkViolation
          ("Recursive rm target outside allowed roots: " ++ pathToString t)
          "destructive_command_controls.rm_rules.allow_recursive_only_under")
      | none => .ok ()
    else .ok ()

/-- `Executor._enforce_git_controls`. -/
def enforce_git_controls (policy : Policy) (parts : List String) :
    Except Violation Unit :=
  if parts.head? ≠ some "git" then .ok ()
  else
    let subcmd := (parts.drop 1).headD ""
    if policy.git_deny_push && subcmd == "push" then
      .error (mkViolation "git push is denied by policy." "git_controls.deny_push")
    else if policy.git_deny_remote_add && subcmd == "remote" &&
        decide (parts.length > 2) && (parts.getD 2 "" == "add") then
      .error (mkViolation "git remote add is denied by policy."
        "git_controls.deny_remote_add")
    else if policy.git_deny_force &&
        (parts.tail.any fun p => p == "--force" || strStartsWith p "-f") then
      .error (mkViolation "Forced git operations are denied by policy."
        "git_controls.deny_force")
    else .ok ()

/-- The hostname of a literal `http://`/`https://` URL, as
`(urlparse(u).hostname or "").lower()`: the authority runs to the next `/`,
`?` or `#`; userinfo before `@` and a `:port` suffix are stripped. -/
def urlHostname (u : String) : String :=
  let afterScheme :=
    if strStartsWith u "http://" then u.data.drop 7
    else if strStartsWith u "https://" then u.data.drop 8
    else u.data
  let authority := afterScheme.takeWhile fun c => c ≠ '/' && c ≠ '?' && c ≠ '#'
  let hostPort :=
    match (splitByPred (fun c => c = '@') authority).getLast? with
    | some h => h
    | none => authority
  pyLower (String.mk (hostPort.takeWhile fun c => c ≠ ':'))

/-- `Executor._enforce_network_controls`. -/
def enforce_network_controls (policy : Policy) (parts : List String) :
    Except Violation Unit :=
  match parts.head? with
  | none => .ok ()
  | some exe =>
    if exe ≠ "curl" ∧ exe ≠ "wget" then .ok ()
    else if !policy.allow_outbound_http then
      .error (mkViolation "Outbound HTTP is denied by policy."
        "network_controls.allow_outbound_http")
    else if policy.allow_domains.isEmpty then .ok ()
    else
      let urls := parts.tail.filter fun p =>
        strStartsWith p "http://" || strStartsWith p "https://"
      match urls.find? (fun u => !policy.allow_domains.contains (urlHostname u)) with
      | some u =>
        .error (mkViolation ("Domain not allowed by policy: " ++ urlHostname u)
          "network_controls.allow_domains")
      | none => .ok ()

/-! ### The filesystem state and the two privileged operations -/

/-- The filesystem touched by `write_file`: file contents and the set of
existing directories. -/
structure FileSystem where
  files : List (PyPath × String)
  dirs : List PyPath
deriving DecidableEq, Repr

def upsertFile : List (PyPath × String) → PyPath → String → List (PyPath × String)
  | [], t, c => [(t, c)]
  | (p, v) :: rest, t, c =>
    if p = t then (t, c) :: rest else (p, v) :: upsertFile rest t c

/-- Reading a file back from the filesystem state. -/
def lookupFile (files : List (PyPath × String)) (t : PyPath) : Option String :=
  (files.find? fun e => e.1 = t).map (·.2)

def pathParent (p : PyPath) : PyPath :=
  ⟨p.absolute, p.parts.dropLast⟩

/-- All prefixes of a directory path, for `mkdir(parents=True)`. -/
def ancestorsOf (p : PyPath) : List PyPath :=
  (List.range (p.parts.length + 1)).map fun n => ⟨p.absolute, p.parts.take n⟩

/-- The mutation performed by `write_file` once validation has passed:
`target.parent.mkdir(parents=True, exist_ok=True)` followed by
`target.write_text(content)`. -/
def writeEffect (fs : FileSystem) (target : PyPath) (content : String) :
    FileSystem :=
  { dirs := fs.dirs ++ ((ancestorsOf (pathParent target)).filter
      fun d => !fs.dirs.contains d),
    files := upsertFile fs.files target content }

/-- `Executor.write_file`, with the filesystem threaded explicitly; the
state is mutated only in the success branch, mirroring the source order. -/
def write_file (env : Env) (ex : Executor) (fs : FileSystem)
    (rel_path content : String) : Except Violation PyPath × FileSystem :=
  let target := resolveP env (joinPath ex.workspace (parsePath rel_path))
  if is_denied_path env ex.policy target then
    (.error (mkViolation ("Denied path: " ++ pathToString target) "denied_paths"), fs)
  else if !is_allowed_write env ex.policy target then
    (.error (mkViolation ("Write outside allowed roots: " ++ pathToString target)
      "allowed_write_roots"), fs)
  else
    match enforce_write_size_limit ex.policy content with
    | .error v => (.error v, fs)
    | .ok _ => (.ok target, writeEffect fs target content)

/-- What the child process would do if spawned: finish with an exit code
and output, or exceed the timeout. -/
inductive ProcBehavior where
  | completes (returncode : Int) (stdout stderr : String)
  | timesOut
deriving DecidableEq, Repr

/-- Outcome of `Executor.run`: a raised `PolicyViolation`, a returned
`ExecResult`, a `subprocess.TimeoutExpired` propagating uncaught (there is
no handler in `run`), or a `ValueError` from `shlex.split`. -/
inductive RunOutcome where
  | violation (v : Violation)
  | result (r : ExecResult)
  | timeoutExpired
  | splitError
deriving DecidableEq, Repr

/-- The rule tag of a `PolicyViolation` outcome, if any. -/
def RunOutcome.rule? : RunOutcome → Option String
  | .violation v => some v.rule
  | _ => none

/-- `Executor.run`.  The second component records whether a child process
was spawned (the `subprocess.run` call was reached). -/
def run (env : Env) (ex : Executor) (command : String) (cwd : Option PyPath)
    (timeout_s : Nat) (behavior : ProcBehavior) : RunOutcome × Bool :=
  match shlexSplit command with
  | none => (.splitError, false)
  | some parts =>
    match parts with
    | [] => (.violation (mkViolation "Empty command" "command_allowlist"), false)
    | exe :: _ =>
      if !ex.policy.command_allowlist.contains exe then
        (.violation (mkViolation ("Command not in allowlist: " ++ exe)
          "command_allowlist"), false)
      else if ex.policy.command_denylist.contains exe then
        (.violation (mkViolation ("Command is explicitly denied by policy: " ++ exe)
          "command_denylist"), false)
      else
        let run_cwd := resolveP env (cwd.getD ex.workspace)
        if is_denied_path env ex.policy run_cwd then
          (.violation (mkViolation ("Denied cwd: " ++ pathToString run_cwd)
            "denied_paths"), false)
        else if !is_allowed_read env ex.policy run_cwd then
          (.violation (mkViolation
            ("CWD outside allowed read roots: " ++ pathToString run_cwd)
            "allowed_read_roots"), false)
        else
          match enforce_destructive_patterns ex.policy command with
          | .error v => (.violation v, false)
          | .ok _ =>
          match enforce_rm_rules env ex.policy parts run_cwd with
          | .error v => (.violation v, false)
          | .ok _ =>
          match enforce_git_controls ex.policy parts with
          | .error v => (.violation v, false)
          | .ok _ =>
          match enforce_network_controls ex.policy parts with
          | .error v => (.violation v, false)
          | .ok _ =>
            match behavior with
            | .timesOut => (.timeoutExpired, true)
            | .completes rc out err =>
              (.result ⟨rc == 0, command, rc, strTakeRight out 12000,
                strTakeRight err 12000⟩, true)

/-! ### `Router` (`src/core/cg/router.py`)

Scores, the confidence threshold and the 0.08 ambiguity margin are modelled
in exact hundredths (as `Int`): every numeric literal the source compares
(0.8, 0.85, 0.15, 0.1, 0.08, the 0.86 default, the clamp bounds 0 and 1)
lies on that grid, every reachable score is a sum of those literals capped
at 1.0, and no pair of reachable values straddles any of these comparisons
differently in binary floating point than in exact arithmetic.
Regular-expression evaluation (`re.search`) is a parameter of the
embedding: `RegexOutcome.invalid` models a raised `re.error`. -/

structure RouteDecision where
  mode : String
  handler_id : Option String
  /-- confidence in hundredths (`100` = confidence 1.0) -/
  confidence : Int
  reason : String
deriving DecidableEq, Repr

inductive RegexOutcome where
  | matched | notMatched | invalid
deriving DecidableEq, Repr

/-- A model of `re.search(pattern, text)` for the pattern shapes used in
concrete test inputs: the empty pattern is valid and matches everything, a
purely alphabetic pattern is a literal and matches iff it is a substring of
the text, and anything else is treated as invalid (`[` indeed raises
`re.error`). -/
def litMatch (pat text : String) : RegexOutcome :=
  if pat = "" then .matched
  else if pat.data.all Char.isAlpha then
    if strContains text pat then .matched else .notMatched
  else .invalid

/-- `_contains_any(text, items)`. -/
def containsAny (text : String) (items : List String) : Bool :=
  items.any fun x => strContains text x

/-- `_score_workspace`. -/
def score_workspace (text : String) : Int × String :=
  let s0 : Int := 0
  let r0 : List String := []
  let (s1, r1) :=
    if containsAny text ["workspace files", "workspace tree",
        "list files in workspace", "show workspace files", "show files",
        "list files"] then
      (s0 + 80, r0 ++ ["workspace phrase"])
    else (s0, r0)
  let (s2, r2) :=
    if containsAny text ["list", "show", "print", "display", "scan",
        "inventory"] then
      (s1 + 15, r1 ++ ["action verb"])
    else (s1, r1)
  let (s3, r3) :=
    if strContains text "workspace" then
      (s2 + 10, r2 ++ ["workspace token"])
    else (s2, r2)
  (min 100 s3,
    if r3.isEmpty then "weak workspace match" else String.intercalate ", " r3)

/-- `_score_outputs`. -/
def score_outputs (text : String) : Int × String :=
  let s0 : Int := 0
  let r0 : List String := []
  let (s1, r1) :=
    if containsAny text ["show outputs", "inspect outputs", "output folders",
        "reports logs artifacts"] then
      (s0 + 80, r0 ++ ["outputs phrase"])
    else (s0, r0)
  let (s2, r2) :=
    if containsAny text ["reports", "logs", "artifacts"] then
      (s1 + 15, r1 ++ ["output token"])
    else (s1, r1)
  let (s3, r3) :=
    if containsAny text ["list", "show", "print", "display"] then
      (s2 + 10, r2 ++ ["action verb"])
    else (s2, r2)
  (min 100 s3,
    if r3.isEmpty then "weak outputs match" else String.intercalate ", " r3)

/-- `_score_structure`. -/
def score_structure (text : String) : Int × String :=
  let s0 : Int := 0
  let r0 : List String := []
  let (s1, r1) :=
    if containsAny text ["show structure", "solution structure",
        "project tree", "folder tree"] then
      (s0 + 80, r0 ++ ["structure phrase"])
    else (s0, r0)
  let (s2, r2) :=
    if containsAny text ["structure", "tree", "hierarchy"] then
      (s1 + 15, r1 ++ ["structure token"])
    else (s1, r1)
  let (s3, r3) :=
    if containsAny text ["list", "show", "print", "display"] then
      (s2 + 10, r2 ++ ["action verb"])
    else (s2, r2)
  (min 100 s3,
    if r3.isEmpty then "weak structure match" else String.intercalate ", " r3)

/-- `_score_snaps`. -/
def score_snaps (text : String) : Int × String :=
  let s0 : Int := 0
  let r0 : List String := []
  let (s1, r1) :=
    if containsAny text ["snapshot tests", "run snapshots", "ui snapshot",
        "screen snapshot"] then
      (s0 + 85, r0 ++ ["snapshot phrase"])
    else (s0, r0)
  let (s2, r2) :=
    if containsAny text ["run", "execute", "check", "validate"] then
      (s1 + 10, r1 ++ ["action verb"])
    else (s1, r1)
  (min 100 s2,
    if r2.isEmpty then "weak snapshot match" else String.intercalate ", " r2)

/-- A scored routing candidate `(handler_id, score, reason)`; the score is
in hundredths. -/
abbrev Cand := String × Int × String

/-- The fixed candidate list computed by `decide_route`. -/
def routeScored (text : String) : List Cand :=
  [("inspect_workspace", score_workspace text),
   ("inspect_outputs", score_outputs text),
   ("inspect_structure", score_structure text),
   ("dev_snaps", score_snaps text)]

/-- The `allowed_handlers` filter of `decide_route` (an empty set means no
filtering). -/
def routeFiltered (policy : Policy) (text : String) : List Cand :=
  if policy.allowed_handlers.isEmpty then routeScored text
  else (routeScored text).filter fun c => policy.allowed_handlers.contains c.1

/-- Stable insertion of a candidate into a list sorted descending by score:
the new element goes before the first strictly lower-scored element, after
any equal scores (which were earlier in the original list). -/
def insertDesc (x : Cand) : List Cand → List Cand
  | [] => [x]
  | y :: ys =>
    if x.2.1 ≤ y.2.1 then y :: insertDesc x ys else x :: y :: ys

/-- Stable descending sort by score, as
`candidates.sort(key=lambda x: x[1], reverse=True)`. -/
def sortDesc : List Cand → List Cand
  | [] => []
  | x :: xs => insertDesc x (sortDesc xs)

/-- The text normalisation of `decide_route`: `(prompt or "").strip().lower()`. -/
def normalizeText (prompt : String) : String :=
  pyLower (pyStrip prompt)

/-- The `force_llm_patterns` loop: the first pattern whose evaluation is a
match wins; invalid patterns (`re.error`) and non-matches are skipped. -/
def findForcePattern (rmatch : String → String → RegexOutcome)
    (patterns : List String) (text : String) : Option String :=
  patterns.find? fun p => rmatch p text == RegexOutcome.matched

/-- `decide_route`, parameterised by the regular-expression evaluator. -/
def decide_route (rmatch : String → String → RegexOutcome) (policy : Policy)
    (prompt : String) : RouteDecision :=
  if !policy.enable_deterministic_routing then
    ⟨"llm", none, 0, "routing disabled by policy"⟩
  else
    let text := normalizeText prompt
    if text = "" then ⟨"llm", none, 0, "empty prompt"⟩
    else
      match findForcePattern rmatch policy.force_llm_patterns text with
      | some pattern => ⟨"llm", none, 100, "force_llm pattern: " ++ pattern⟩
      | none =>
        let candidates := routeFiltered policy text
        if candidates.isEmpty then
          ⟨"llm", none, 0, "no allowed deterministic handlers"⟩
        else
          match sortDesc candidates with
          | [] => ⟨"llm", none, 0, "no allowed deterministic handlers"⟩
          | best :: rest =>
            let second_score := match rest with
              | [] => (0 : Int)
              | c :: _ => c.2.1
            let threshold := policy.deterministic_confidence_threshold
            if best.2.1 < threshold then
              ⟨"llm", none, best.2.1, "top score below threshold"⟩
            else if best.2.1 - second_score < 8 then
              ⟨"llm", none, best.2.1, "ambiguous candidates delta<0.08"⟩
            else
              ⟨"deterministic", some best.1, best.2.1, best.2.2⟩

/-! ### Derived notions used by the verification -/

/-- A clean path component: none of the relative-indirection markers. -/
def CleanComp (c : String) : Prop :=
  c ≠ ".." ∧ c ≠ "." ∧ c ≠ ""

instance (c : String) : Decidable (CleanComp c) := by
  unfold CleanComp
  infer_instance

/-! ### Concrete policies, executors and environments for evaluations -/

/-- A policy document with everything empty / at its defaults. -/
def basePolicy : Policy :=
  { allowed_write_roots := [], allowed_read_roots := [], denied_paths := []
    command_allowlist := [], command_denylist := []
    destructive_deny_patterns := []
    rm_deny_recursive := false, rm_allow_recursive_only_under := []
    git_deny_push := false, git_deny_force := false, git_deny_remote_add := false
    allow_outbound_http := false, allow_domains := []
    max_file_write_bytes := 750000
    enable_deterministic_routing := true, dct_raw := 86
    allowed_handlers := [], force_llm_patterns := [] }

def envC : Env := ⟨parsePath "/cwd", parsePath "/home/user"⟩

def fsEmpty : FileSystem := ⟨[], []⟩

def polSleep : Policy := { basePolicy with command_allowlist := ["sleep"] }

def exSleep : Executor := ⟨polSleep, parsePath "/ws"⟩

def polBoth : Policy :=
  { basePolicy with command_allowlist := ["git"], command_denylist := ["git"] }

def exBoth : Executor := ⟨polBoth, parsePath "/ws"⟩

def polC9 : Policy := { basePolicy with allow_outbound_http := true }

def exC9 : Executor := ⟨polC9, parsePath "/ws"⟩

def polC4 : Policy := { basePolicy with
  allowed_write_roots := ["/ws"]
  denied_paths := ["/ws/secret"]
  max_file_write_bytes := 16 }

def exC4 : Executor := ⟨polC4, parsePath "/ws"⟩

def polRm : Policy := { basePolicy with
  command_allowlist := ["rm"]
  rm_allow_recursive_only_under := ["/ws/safe"] }

def polRmDeny : Policy := { basePolicy with rm_deny_recursive := true }

def polDis : Policy := { basePolicy with
  enable_deterministic_routing := false
  force_llm_patterns := ["hello"] }

def polEmptyPat : Policy := { basePolicy with force_llm_patterns := [""] }

def polForce : Policy := { basePolicy with force_llm_patterns := ["[", "hello"] }

def polOut : Policy := { basePolicy with allowed_write_roots := ["/out"] }

def exOut : Executor := ⟨polOut, parsePath "/ws"⟩

/-- The filesystem state after writing `x` to `/out/a.txt` in `fsEmpty`. -/
def fsOut : FileSystem :=
  ⟨[(⟨true, ["out", "a.txt"]⟩, "x")], [⟨true, []⟩, ⟨true, ["out"]⟩]⟩

/-! ### Supporting lemmas -/

theorem mem_foldl_normStep_clean (l : List String) :
    ∀ acc : List String, (∀ c ∈ acc, CleanComp c) →
      ∀ c ∈ l.foldl normStep acc, CleanComp c := by
  induction l with
  | nil => intro acc hacc c hc; exact hacc c hc
  | cons d l ih =>
    intro acc hacc c hc
    refine ih (normStep acc d) ?_ c hc
    intro x hx
    unfold normStep at hx
    by_cases h1 : d = ".."
    · simp only [h1, if_pos rfl] at hx
      exact hacc x (List.dropLast_subset acc hx)
    · rw [if_neg h1] at hx
      by_cases h2 : d = "." ∨ d = ""
      · rw [if_pos h2] at hx
        exact hacc x hx
      · rw [if_neg h2] at hx
        rcases List.mem_append.mp hx with h | h
        · exact hacc x h
        · rw [List.mem_singleton.mp h]
          push_neg at h2
          exact ⟨h1, h2.1, h2.2⟩

theorem foldl_normStep_of_clean (l : List String) :
    ∀ acc : List String, (∀ c ∈ l, CleanComp c) →
      l.foldl normStep acc = acc ++ l := by
  induction l with
  | nil => intro acc _; simp
  | cons d l ih =>
    intro acc hl
    have hd : CleanComp d := hl d (List.mem_cons_self d l)
    have hstep : normStep acc d = acc ++ [d] := by
      unfold normStep
      rw [if_neg hd.1, if_neg (by push_neg; exact ⟨hd.2.1, hd.2.2⟩)]
    calc (d :: l).foldl normStep acc = l.foldl normStep (acc ++ [d]) := by
          rw [List.foldl_cons, hstep]
      _ = (acc ++ [d]) ++ l := ih (acc ++ [d]) fun c hc => hl c (List.mem_cons_of_mem d hc)
      _ = acc ++ d :: l := by simp

theorem resolveP_parts_clean (env : Env) (p : PyPath) :
    ∀ c ∈ (resolveP env p).parts, CleanComp c := by
  intro c hc
  exact mem_foldl_normStep_clean _ [] (by intro x hx; cases hx) c hc

theorem resolveP_idem (env : Env) (p : PyPath) :
    resolveP env (resolveP env p) = resolveP env p := by
  have h1 : (resolveP env p).absolute = true := rfl
  show resolveP env ⟨true, (resolveP env p).parts⟩ = resolveP env p
  unfold resolveP
  simp only [if_pos rfl, List.nil_append]
  exact congrArg (PyPath.mk true)
    (foldl_normStep_of_clean _ [] (resolveP_parts_clean env p))

theorem lookupFile_upsertFile (files : List (PyPath × String)) (t : PyPath)
    (c : String) : lookupFile (upsertFile files t c) t = some c := by
  induction files with
  | nil => simp [upsertFile, lookupFile, List.find?]
  | cons e rest ih =>
    obtain ⟨p, v⟩ := e
    by_cases h : p = t
    · simp [upsertFile, h, lookupFile, List.find?]
    · simp only [upsertFile, if_neg h]
      simpa [lookupFile, List.find?, h] using ih

/-! ### The claims -/

/-- Claim C1: for every command line that tokenizes with executable token
`exe`, if `exe` is present in both `command_allowlist` and
`command_denylist` then `run` raises a `PolicyViolation` with
`rule="command_denylist"` (deny overrides allow), and if `exe` is absent
from `command_allowlist` then `run` raises a `PolicyViolation` with
`rule="command_allowlist"`. -/
theorem run_allow_deny (env : Env) (ex : Executor) (command : String)
    (cwd : Option PyPath) (timeout_s : Nat) (behavior : ProcBehavior)
    (exe : String) (rest : List String)
    (hsplit : shlexSplit command = some (exe :: rest)) :
    (ex.policy.command_allowlist.contains exe = true →
      ex.policy.command_denylist.contains exe = true →
      (run env ex command cwd timeout_s behavior).1.rule? = some "command_denylist")
    ∧ (ex.policy.command_allowlist.contains exe = false →
      (run env ex command cwd timeout_s behavior).1.rule? = some "command_allowlist") := by
  constructor
  · intro hallow hdeny
    simp only [run, hsplit, hallow, hdeny, Bool.not_true, if_false, if_true]
    rfl
  · intro hallow
    simp only [run, hsplit, hallow, Bool.not_false, if_true]
    rfl

/-- Witness for C1: `git` in both lists is denied with `command_denylist`;
`ls` outside the allowlist is denied with `command_allowlist`. -/
theorem run_allow_deny_witness :
    (run envC exBoth "git push" none 60 (.completes 0 "" "")).1.rule?
      = some "command_denylist"
    ∧ (run envC exSleep "ls" none 60 (.completes 0 "" "")).1.rule?
      = some "command_allowlist" :=
  ⟨(run_allow_deny envC exBoth "git push" none 60 (.completes 0 "" "")
      "git" ["push"] (by decide)).1 (by decide) (by decide),
   (run_allow_deny envC exSleep "ls" none 60 (.completes 0 "" "")
      "ls" [] (by decide)).2 (by decide)⟩

/-- Claim C2 (code bug): an allow-listed command that passes every policy
check but exceeds the timeout does NOT return an `ExecResult` with
`ok=false`; the `subprocess.TimeoutExpired` exception propagates uncaught
out of `Executor.run` (there is no handler around `subprocess.run`).  The
child process is terminated (by `subprocess.run` itself), but the claimed
non-fatal `ok=false` result is never produced. -/
theorem run_timeout_uncaught :
    run envC exSleep "sleep 10" none 1 ProcBehavior.timesOut
      = (RunOutcome.timeoutExpired, true)
    ∧ ∀ r : ExecResult, RunOutcome.timeoutExpired ≠ RunOutcome.result r :=
  ⟨by decide, fun r h => nomatch h⟩

/-- Claim C3: whenever `write_file` or `run` raises a `PolicyViolation`, no
side effect has occurred: the filesystem is unchanged and no child process
was spawned — validation completes before any mutation begins. -/
theorem violation_no_side_effect :
    (∀ (env : Env) (ex : Executor) (fs : FileSystem) (rel_path content : String)
      (v : Violation),
      (write_file env ex fs rel_path content).1 = Except.error v →
      (write_file env ex fs rel_path content).2 = fs)
    ∧ (∀ (env : Env) (ex : Executor) (command : String) (cwd : Option PyPath)
      (timeout_s : Nat) (behavior : ProcBehavior) (v : Violation),
      (run env ex command cwd timeout_s behavior).1 = RunOutcome.violation v →
      (run env ex command cwd timeout_s behavior).2 = false) := by
  constructor
  · intro env ex fs rel_path content v h
    simp only [write_file] at h ⊢
    by_cases h1 : is_denied_path env ex.policy
        (resolveP env (joinPath ex.workspace (parsePath rel_path))) = true
    · simp [h1]
    · by_cases h2 : is_allowed_write env ex.policy
          (resolveP env (joinPath ex.workspace (parsePath rel_path))) = true
      · simp only [h1, h2, Bool.not_true, if_false, if_true, Bool.false_eq_true] at h ⊢
        cases hsz : enforce_write_size_limit ex.policy content with
        | error v' => simp [hsz]
        | ok u => simp [hsz] at h
      · simp only [Bool.not_eq_true] at h2
        simp [h1, h2]
  · intro env ex command cwd timeout_s behavior v h
    simp only [run] at h ⊢
    cases hsp : shlexSplit command with
    | none => simp [hsp]
    | some parts =>
      cases parts with
      | nil => simp [hsp]
      | cons exe rest =>
        simp only [hsp] at h ⊢
        by_cases h1 : ex.policy.command_allowlist.contains exe = true
        case neg =>
          simp only [Bool.not_eq_true] at h1
          simp only [h1, Bool.not_false, if_true]
        case pos =>
          simp only [h1, Bool.not_true, if_false, Bool.false_eq_true] at h ⊢
          by_cases h2 : ex.policy.command_denylist.contains exe = true
          · simp only [h2, if_true]
          · simp only [Bool.not_eq_true] at h2
            simp only [h2, Bool.false_eq_true, if_false] at h ⊢
            by_cases h3 : is_denied_path env ex.policy
                (resolveP env (cwd.getD ex.workspace)) = true
            · simp [h3]
            · simp only [Bool.not_eq_true] at h3
              simp only [h3, Bool.false_eq_true, if_false] at h ⊢
              by_cases h4 : is_allowed_read env ex.policy
                  (resolveP env (cwd.getD ex.workspace)) = true
              · simp only [h4, Bool.not_true, Bool.false_eq_true, if_false] at h ⊢
                cases hd : enforce_destructive_patterns ex.policy command with
                | error v1 => simp [hd]
                | ok u1 =>
                  simp only [hd] at h ⊢
                  cases hr : enforce_rm_rules env ex.policy (exe :: rest)
                      (resolveP env (cwd.getD ex.workspace)) with
                  | error v2 => simp [hr]
                  | ok u2 =>
                    simp only [hr] at h ⊢
                    cases hg : enforce_git_controls ex.policy (exe :: rest) with
                    | error v3 => simp [hg]
                    | ok u3 =>
                      simp only [hg] at h ⊢
                      cases hn : enforce_network_controls ex.policy (exe :: rest) with
                      | error v4 => simp [hn]
                      | ok u4 =>
                        simp only [hn] at h ⊢
                        cases behavior with
                        | timesOut => simp at h
                        | completes rc out err => simp at h
              · simp only [Bool.not_eq_true] at h4
                simp [h4]

/-- Witness for C3: a rejected write leaves the filesystem untouched and a
rejected command spawns no process. -/
theorem violation_no_side_effect_witness :
    (write_file envC exC9 fsEmpty "a.txt" "hi").2 = fsEmpty
    ∧ (run envC exC9 "ls" none 60 (.completes 0 "" "")).2 = false :=
  ⟨violation_no_side_effect.1 envC exC9 fsEmpty "a.txt" "hi"
      (mkViolation "Write outside allowed roots: /ws/a.txt" "allowed_write_roots")
      (by decide),
   violation_no_side_effect.2 envC exC9 "ls" none 60 (.completes 0 "" "")
      (mkViolation "Command not in allowlist: ls" "command_allowlist")
      (by decide)⟩

/-- Counterexample to C4 as stated: oversized content written to a denied
target raises `rule="denied_paths"`, not
`rule="execution_limits.max_file_write_bytes"` — the path checks run before
the size check, so the first half of C4, quantified over every content
string, is false without the path-side conditions. -/
theorem write_size_rule_counterexample :
    "01234567890123456789".utf8ByteSize > exC4.policy.max_file_write_bytes
    ∧ writeRule? (write_file envC exC4 fsEmpty "secret/x.txt"
        "01234567890123456789").1 = some "denied_paths"
    ∧ (some "denied_paths" : Option String)
        ≠ some "execution_limits.max_file_write_bytes" := by decide

/-- Claim C4 as amended: when the resolved target passes the denied-path and
write-root checks, content whose byte length exceeds `maxFileWriteBytes` is
rejected with `rule="execution_limits.max_file_write_bytes"`, and content at
or below the limit is accepted with reading the written file back returning
exactly the written content. -/
theorem write_size_limit_enforced (env : Env) (ex : Executor) (fs : FileSystem)
    (rel_path content : String)
    (hden : is_denied_path env ex.policy
      (resolveP env (joinPath ex.workspace (parsePath rel_path))) = false)
    (hall : is_allowed_write env ex.policy
      (resolveP env (joinPath ex.workspace (parsePath rel_path))) = true) :
    (content.utf8ByteSize > ex.policy.max_file_write_bytes →
      writeRule? (write_file env ex fs rel_path content).1
        = some "execution_limits.max_file_write_bytes")
    ∧ (content.utf8ByteSize ≤ ex.policy.max_file_write_bytes →
      (write_file env ex fs rel_path content).1
        = Except.ok (resolveP env (joinPath ex.workspace (parsePath rel_path)))
      ∧ lookupFile (write_file env ex fs rel_path content).2.files
          (resolveP env (joinPath ex.workspace (parsePath rel_path)))
        = some content) := by
  constructor
  · intro hsize
    simp only [write_file, hden, Bool.false_eq_true, if_false, hall, Bool.not_true]
    unfold enforce_write_size_limit
    rw [if_pos hsize]
    rfl
  · intro hsize
    simp only [write_file, hden, Bool.false_eq_true, if_false, hall, Bool.not_true]
    unfold enforce_write_size_limit
    rw [if_neg (by omega)]
    exact ⟨rfl, lookupFile_upsertFile _ _ _⟩

/-- Witness for C4 (amended): a 2-byte write under a 16-byte limit succeeds
and reads back identically; a 20-byte write is rejected with the size rule. -/
theorem write_size_limit_witness :
    ((write_file envC exC4 fsEmpty "ok.txt" "hi").1
      = Except.ok (resolveP envC (joinPath exC4.workspace (parsePath "ok.txt")))
    ∧ lookupFile (write_file envC exC4 fsEmpty "ok.txt" "hi").2.files
        (resolveP envC (joinPath exC4.workspace (parsePath "ok.txt")))
      = some "hi")
    ∧ writeRule? (write_file envC exC4 fsEmpty "big.txt"
        "01234567890123456789").1 = some "execution_limits.max_file_write_bytes" :=
  ⟨(write_size_limit_enforced envC exC4 fsEmpty "ok.txt" "hi"
      (by decide) (by decide)).2 (by decide),
   (write_size_limit_enforced envC exC4 fsEmpty "big.txt" "01234567890123456789"
      (by decide) (by decide)).1 (by decide)⟩

/-- Claim C5: for every `rm` command carrying a recursive flag, if
`deny_recursive` is set the command is rejected outright; otherwise, when
`allow_recursive_only_under` is non-empty, every non-flag argument is
resolved relative to `cwd`, the command is rejected when some resolved
target lies outside every allowed root, and is not rejected by this rule
when all targets lie under some allowed root. -/
theorem rm_rules_enforcement (env : Env) (policy : Policy) (parts : List String)
    (cwd : PyPath)
    (hhead : parts.head? = some "rm")
    (hflag : hasRecursiveFlag parts = true) :
    (policy.rm_deny_recursive = true →
      checkRule? (enforce_rm_rules env policy parts cwd)
        = some "destructive_command_controls.rm_rules.deny_recursive")
    ∧ (policy.rm_deny_recursive = false →
      policy.rm_allow_recursive_only_under ≠ [] →
      ((∃ a ∈ rmTargetArgs parts, ∀ r ∈ rmRoots env policy,
          isRelativeTo (resolve_cli_path env a cwd) r = false) →
        checkRule? (enforce_rm_rules env policy parts cwd)
          = some "destructive_command_controls.rm_rules.allow_recursive_only_under")
      ∧ ((∀ a ∈ rmTargetArgs parts, ∃ r ∈ rmRoots env policy,
          isRelativeTo (resolve_cli_path env a cwd) r = true) →
        enforce_rm_rules env policy parts cwd = Except.ok ())) := by
  have hne : ¬ (parts.head? ≠ some "rm") := by rw [hhead]; simp
  constructor
  · intro hden
    unfold enforce_rm_rules
    rw [if_neg hne, hflag, hden]
    rfl
  · intro hden hroots
    have hre : (rmRoots env policy).isEmpty = false := by
      unfold rmRoots
      cases hc : policy.rm_allow_recursive_only_under with
      | nil => exact absurd hc hroots
      | cons x xs => simp
    constructor
    · rintro ⟨a, ha, hout⟩
      unfold enforce_rm_rules
      rw [if_neg hne, hflag, hden]
      simp only [Bool.and_false, Bool.false_eq_true, if_false, hre, Bool.not_false,
        Bool.and_true, if_true]
      have hpred : (!(rmRoots env policy).any fun r =>
          isRelativeTo (resolve_cli_path env a cwd) r) = true := by
        simp only [Bool.not_eq_true']
        rw [List.any_eq_false]
        intro r hr
        simp [hout r hr]
      cases hf : ((rmTargetArgs parts).map fun a => resolve_cli_path env a cwd).find?
          (fun t => !(rmRoots env policy).any fun r => isRelativeTo t r) with
      | none =>
        exfalso
        have := List.find?_eq_none.mp hf (resolve_cli_path env a cwd)
          (List.mem_map_of_mem _ ha)
        exact this hpred
      | some t => rfl
    · intro hin
      unfold enforce_rm_rules
      rw [if_neg hne, hflag, hden]
      simp only [Bool.and_false, Bool.false_eq_true, if_false, hre, Bool.not_false,
        Bool.and_true, if_true]
      have hf : ((rmTargetArgs parts).map fun a => resolve_cli_path env a cwd).find?
          (fun t => !(rmRoots env policy).any fun r => isRelativeTo t r) = none := by
        rw [List.find?_eq_none]
        intro x hx
        obtain ⟨a, ha, rfl⟩ := List.mem_map.mp hx
        obtain ⟨r, hr, hrel⟩ := hin a ha
        have hany : ((rmRoots env policy).any fun r =>
            isRelativeTo (resolve_cli_path env a cwd) r) = true :=
          List.any_eq_true.mpr ⟨r, hr, hrel⟩
        simp [hany]
      rw [hf]

/-- Witness for C5: `rm -rf ../outside` of the `/ws/safe`-rooted policy is
rejected, `rm -rf safe/x` is accepted, and with `deny_recursive` set,
`rm -r x` is rejected outright. -/
theorem rm_rules_witness :
    checkRule? (enforce_rm_rules envC polRm ["rm", "-rf", "../outside"]
        (parsePath "/ws"))
      = some "destructive_command_controls.rm_rules.allow_recursive_only_under"
    ∧ enforce_rm_rules envC polRm ["rm", "-rf", "safe/x"] (parsePath "/ws")
      = Except.ok ()
    ∧ checkRule? (enforce_rm_rules envC polRmDeny ["rm", "-r", "x"]
        (parsePath "/ws"))
      = some "destructive_command_controls.rm_rules.deny_recursive" :=
  ⟨((rm_rules_enforcement envC polRm ["rm", "-rf", "../outside"]
      (parsePath "/ws") (by decide) (by decide)).2 rfl (by decide)).1
      ⟨"../outside", by decide, by decide⟩,
   ((rm_rules_enforcement envC polRm ["rm", "-rf", "safe/x"]
      (parsePath "/ws") (by decide) (by decide)).2 rfl (by decide)).2 (by decide),
   (rm_rules_enforcement envC polRmDeny ["rm", "-r", "x"]
      (parsePath "/ws") (by decide) (by decide)).1 rfl⟩

/-- Counterexample to C6 as stated: when deterministic routing is disabled
(or the normalized text is empty), the router returns early with
confidence 0 even though the text matches a valid `force_llm_patterns`
regular expression, so the unconditional "confidence 1.0" claim is false. -/
theorem route_force_llm_counterexample :
    litMatch "hello" (normalizeText "hello") = RegexOutcome.matched
    ∧ polDis.force_llm_patterns = ["hello"]
    ∧ decide_route litMatch polDis "hello"
      = ⟨"llm", none, 0, "routing disabled by policy"⟩
    ∧ (decide_route litMatch polDis "hello").confidence ≠ 100
    ∧ litMatch "" (normalizeText "  ") = RegexOutcome.matched
    ∧ polEmptyPat.force_llm_patterns = [""]
    ∧ decide_route litMatch polEmptyPat "  "
      = ⟨"llm", none, 0, "empty prompt"⟩ := by decide

/-- Claim C6 as amended: provided deterministic routing is enabled and the
normalized text is non-empty, a request matching any pattern of
`force_llm_patterns` that the regex engine accepts and matches makes the
router return mode `llm` with confidence 1.0 (100 hundredths), regardless
of scoring; patterns the engine rejects (`re.error`) are skipped, not
errors. -/
theorem route_force_llm (rmatch : String → String → RegexOutcome)
    (policy : Policy) (prompt : String)
    (hen : policy.enable_deterministic_routing = true)
    (hne : normalizeText prompt ≠ "")
    (hmatch : ∃ p ∈ policy.force_llm_patterns,
      rmatch p (normalizeText prompt) = RegexOutcome.matched) :
    (decide_route rmatch policy prompt).mode = "llm"
    ∧ (decide_route rmatch policy prompt).confidence = 100 := by
  obtain ⟨q, hq, hqm⟩ := hmatch
  unfold decide_route
  rw [hen]
  simp only [Bool.not_true, Bool.false_eq_true, if_false]
  rw [if_neg hne]
  cases hf : findForcePattern rmatch policy.force_llm_patterns (normalizeText prompt) with
  | none =>
    exfalso
    unfold findForcePattern at hf
    exact List.find?_eq_none.mp hf q hq (by simp [hqm])
  | some pattern => exact ⟨rfl, rfl⟩

/-- Witness for C6 (amended): with patterns `["[", "hello"]` — the first an
invalid regex that is skipped — the prompt " Hello " forces `llm` with
confidence 1.0. -/
theorem route_force_llm_witness :
    (decide_route litMatch polForce " Hello ").mode = "llm"
    ∧ (decide_route litMatch polForce " Hello ").confidence = 100 :=
  route_force_llm litMatch polForce " Hello " rfl (by decide)
    ⟨"hello", by decide, by decide⟩

/-- Claim C7: when the best candidate clears the confidence threshold but
the gap to the second-best score is strictly less than 0.08 (8 hundredths),
the router returns mode `llm` (ambiguity fallback) instead of the
deterministic handler. -/
theorem route_ambiguity_fallback (rmatch : String → String → RegexOutcome)
    (policy : Policy) (prompt : String) (c1 c2 : Cand) (rest : List Cand)
    (hen : policy.enable_deterministic_routing = true)
    (hne : normalizeText prompt ≠ "")
    (hforce : ∀ p ∈ policy.force_llm_patterns,
      rmatch p (normalizeText prompt) ≠ RegexOutcome.matched)
    (hsort : sortDesc (routeFiltered policy (normalizeText prompt)) = c1 :: c2 :: rest)
    (hthr : policy.deterministic_confidence_threshold ≤ c1.2.1)
    (hamb : c1.2.1 - c2.2.1 < 8) :
    (decide_route rmatch policy prompt).mode = "llm" := by
  unfold decide_route
  rw [hen]
  simp only [Bool.not_true, Bool.false_eq_true, if_false]
  rw [if_neg hne]
  have hf : findForcePattern rmatch policy.force_llm_patterns (normalizeText prompt)
      = none := by
    unfold findForcePattern
    rw [List.find?_eq_none]
    intro p hp
    simp [hforce p hp]
  rw [hf]
  have hcne : (routeFiltered policy (normalizeText prompt)).isEmpty = false := by
    cases hc : routeFiltered policy (normalizeText prompt) with
    | nil => rw [hc] at hsort; exact absurd hsort (by simp [sortDesc])
    | cons x xs => simp
  rw [hcne]
  simp only [Bool.false_eq_true, if_false]
  rw [hsort]
  dsimp only
  rw [if_neg (by omega), if_pos (by omega)]

/-- Witness for C7: "show files and show structure" scores 1.0 for the
structure handler and 0.95 for the workspace handler — above the 0.86
threshold but within the 0.08 margin — and routes to `llm`. -/
theorem route_ambiguity_witness :
    (decide_route litMatch basePolicy "show files and show structure").mode
      = "llm" :=
  route_ambiguity_fallback litMatch basePolicy "show files and show structure"
    ("inspect_structure", 100, "structure phrase, structure token, action verb")
    ("inspect_workspace", 95, "workspace phrase, action verb")
    [("inspect_outputs", 10, "action verb"), ("dev_snaps", 0, "weak snapshot match")]
    rfl (by decide) (by decide) (by decide) (by decide) (by decide)

/-- Claim C8: `Policy.load` strips the filesystem root `/` from
`denied_paths` and renders every configured path (write roots, read roots,
denied paths) as an absolute, user-expanded, resolved path with no
relative-indirection components, so the root never appears in denied-path
evaluation and later comparisons are prefix-safe. -/
theorem policy_load_path_normalization (env : Env) (cfg : PolicyConfig) :
    "/" ∉ (Policy.loadPaths env cfg).2.2
    ∧ ∀ s ∈ (Policy.loadPaths env cfg).1 ++ (Policy.loadPaths env cfg).2.1
        ++ (Policy.loadPaths env cfg).2.2,
      ∃ p : PyPath, p.absolute = true ∧ (∀ c ∈ p.parts, CleanComp c)
        ∧ s = pathToString p := by
  constructor
  · intro hmem
    have := (List.mem_filter.mp hmem).2
    simp at this
  · intro s hs
    have hex : ∃ x : String, s = expand_resolve env x := by
      rcases List.mem_append.mp hs with h | h
      · rcases List.mem_append.mp h with h2 | h2
        · obtain ⟨x, _, hx⟩ := List.mem_map.mp h2
          exact ⟨x, hx.symm⟩
        · obtain ⟨x, _, hx⟩ := List.mem_map.mp h2
          exact ⟨x, hx.symm⟩
      · obtain ⟨x, _, hx⟩ := List.mem_map.mp (List.mem_filter.mp h).1
        exact ⟨x, hx.symm⟩
    obtain ⟨x, rfl⟩ := hex
    exact ⟨resolveP env (expanduserP env (parsePath x)), rfl,
      resolveP_parts_clean env _, rfl⟩

/-- Claim C9: with an empty `command_allowlist`, `run` rejects every
command line that tokenizes — including the empty one — with
`rule="command_allowlist"` (deny-all), whereas empty `allowed_read_roots`,
`allow_domains` and `allowed_handlers` mean unrestricted. -/
theorem empty_allowlist_denies (env : Env) (ex : Executor) (command : String)
    (cwd : Option PyPath) (timeout_s : Nat) (behavior : ProcBehavior)
    (parts : List String)
    (hpol : ex.policy.command_allowlist = [])
    (hsplit : shlexSplit command = some parts) :
    (run env ex command cwd timeout_s behavior).1.rule? = some "command_allowlist"
    ∧ (∀ p : PyPath, ex.policy.allowed_read_roots = [] →
        is_allowed_read env ex.policy p = true)
    ∧ (∀ parts2 : List String, ex.policy.allow_domains = [] →
        ex.policy.allow_outbound_http = true →
        enforce_network_controls ex.policy parts2 = .ok ())
    ∧ (∀ text : String, ex.policy.allowed_handlers = [] →
        routeFiltered ex.policy text = routeScored text) := by
  refine ⟨?_, ?_, ?_, ?_⟩
  · cases parts with
    | nil => simp only [run, hsplit]; rfl
    | cons exe rest =>
      have hc : ex.policy.command_allowlist.contains exe = false := by
        rw [hpol]; rfl
      simp only [run, hsplit, hc, Bool.not_false, if_true]
      rfl
  · intro p hrr
    simp [is_allowed_read, hrr]
  · intro parts2 hdom hout
    cases parts2 with
    | nil => simp [enforce_network_controls]
    | cons exe r =>
      simp only [enforce_network_controls, List.head?]
      by_cases hcurl : exe ≠ "curl" ∧ exe ≠ "wget"
      · rw [if_pos hcurl]
      · rw [if_neg hcurl, if_neg (by simp [hout]), if_pos (by simp [hdom])]
  · intro text hah
    simp [routeFiltered, hah]

/-- Witness for C9: an empty allowlist rejects `echo hi` with
`command_allowlist`, while the empty read-root, domain and handler sets
leave reads, domains and handlers unrestricted. -/
theorem empty_allowlist_denies_witness :
    (run envC exC9 "echo hi" none 60 (.completes 0 "" "")).1.rule?
      = some "command_allowlist"
    ∧ is_allowed_read envC polC9 (parsePath "/anywhere") = true
    ∧ enforce_network_controls polC9 ["curl", "https://any.example.org"]
      = Except.ok ()
    ∧ routeFiltered polC9 "show files" = routeScored "show files" := by
  have h := empty_allowlist_denies envC exC9 "echo hi" none 60
    (.completes 0 "" "") ["echo", "hi"] (by decide) (by decide)
  exact ⟨h.1, h.2.1 _ (by decide), h.2.2.1 _ (by decide) (by decide),
    h.2.2.2 _ (by decide)⟩

/-- Claim C10: whenever `write_file` succeeds, the returned target is the
full resolution of `rel_path` against the workspace (covering absolute
paths and `..` escapes), it lies under at least one `allowed_write_roots`
entry, and under no `denied_paths` entry: the workspace confers no write
permission by itself. -/
theorem write_file_target_authorized (env : Env) (ex : Executor)
    (fs : FileSystem) (rel_path content : String) (target : PyPath)
    (fs' : FileSystem)
    (h : write_file env ex fs rel_path content = (Except.ok target, fs')) :
    target = resolveP env (joinPath ex.workspace (parsePath rel_path))
    ∧ (∃ r ∈ ex.policy.allowed_write_roots,
        isRelativeTo target (resolveP env (expanduserP env (parsePath r))) = true)
    ∧ (∀ d ∈ ex.policy.denied_paths,
        isRelativeTo target (resolveP env (expanduserP env (parsePath d))) = false) := by
  simp only [write_file] at h
  by_cases h1 : is_denied_path env ex.policy
      (resolveP env (joinPath ex.workspace (parsePath rel_path))) = true
  · rw [if_pos h1] at h
    exact absurd (congrArg Prod.fst h) (by simp)
  · rw [if_neg h1] at h
    by_cases h2 : is_allowed_write env ex.policy
        (resolveP env (joinPath ex.workspace (parsePath rel_path))) = true
    · rw [if_neg (by simp [h2])] at h
      cases hsz : enforce_write_size_limit ex.policy content with
      | error v => rw [hsz] at h; exact absurd (congrArg Prod.fst h) (by simp)
      | ok u =>
        rw [hsz] at h
        have htgt : target = resolveP env (joinPath ex.workspace (parsePath rel_path)) := by
          have := congrArg Prod.fst h
          simpa using this.symm
        refine ⟨htgt, ?_, ?_⟩
        · unfold is_allowed_write at h2
          rw [htgt, ← List.any_eq_true]
          simpa [resolveP_idem] using h2
        · unfold is_denied_path at h1
          simp only [Bool.not_eq_true] at h1
          intro d hd
          rw [htgt]
          have := List.any_eq_false.mp (by simpa [resolveP_idem] using h1) d hd
          simpa using this
    · have h2' : is_allowed_write env ex.policy
          (resolveP env (joinPath ex.workspace (parsePath rel_path))) = false := by
        simpa using h2
      rw [if_pos (by simp [h2'])] at h
      exact absurd (congrArg Prod.fst h) (by simp)

/-- Witness for C10: writing `../out/a.txt` from workspace `/ws` resolves to
`/out/a.txt`, which lies under the allowed root `/out` and under no denied
path — the workspace itself granted nothing. -/
theorem write_file_target_authorized_witness :
    parsePath "/out/a.txt" = resolveP envC (joinPath exOut.workspace
      (parsePath "../out/a.txt"))
    ∧ (∃ r ∈ exOut.policy.allowed_write_roots, isRelativeTo (parsePath "/out/a.txt")
        (resolveP envC (expanduserP envC (parsePath r))) = true)
    ∧ (∀ d ∈ exOut.policy.denied_paths, isRelativeTo (parsePath "/out/a.txt")
        (resolveP envC (expanduserP envC (parsePath d))) = false) :=
  write_file_target_authorized envC exOut fsEmpty "../out/a.txt" "x"
    (parsePath "/out/a.txt") fsOut (by decide)

end CG
